import Mathlib

/-!
Shallow embedding of `src/include/seqlock_queue/seqlock_queue.h` (namespace `sq`),
a bounded single-producer / single-consumer seqlock queue.

The embedding covers the sequential semantics of the program: the ring storage
(`BoundedSeqlockQueue`), the producer endpoint (`prepare_write` / `commit_write`
and the `write` convenience wrapper that composes them around the payload store),
and the consumer endpoint (`try_read`).  The shared slot array and both
endpoints' private fields are gathered into one state record, and every
operation is a pure state transformer, so a sequential interleaving of producer
and consumer calls is a list of operations folded over the initial state.

Machine integers are modelled as `Nat` with explicit reductions modulo `2 ^ 8`
(the `uint8` slot version, where wrap-around is essential) and `2 ^ 64` (the
`size_t` mask computation).  The 64-bit positions `_write_pos` / `_read_pos`
are monotonic counters that the program treats as non-overflowing, and are
modelled as plain `Nat`.
-/

set_option autoImplicit false
set_option maxRecDepth 200000

universe u

variable {α : Type u}

/-- Bitwise AND computed bit by bit with explicit fuel, one unit of fuel per
bit.  With fuel 64 this is the `&` of two `size_t` operands: exact for operands
below `2 ^ 64` and truncating to 64 bits above. -/
def bitand_fuel : Nat → Nat → Nat → Nat
  | 0, _, _ => 0
  | fuel + 1, a, b => (a % 2) * (b % 2) + 2 * bitand_fuel fuel (a / 2) (b / 2)

/-- 64-bit bitwise AND, as performed on `size_t` / `uint64_t` operands. -/
def nat_and (a b : Nat) : Nat := bitand_fuel 64 a b

/-- `sq::detail::is_pow_of_two`:
`(number != 0u) && ((number & (number - 1u)) == 0u)`.
(For `number = 0` the C++ computes `0 & 0xFF...F = 0`, but the first conjunct
is already false, so Nat truncated subtraction gives the same result.) -/
def is_pow_of_two (number : Nat) : Bool :=
  (number != 0) && (nat_and number (number - 1) == 0)

/-- `sq::detail::next_power_of_2`.  The source computes the final branch as
`static_cast<uint64_t>(std::pow(2u, log2(n) + 1u))` in `double` arithmetic.
In exact real arithmetic `2 ^ (log2 n + 1) = 2 * n` whenever `n` is not a power
of two (and the cast of `pow(2, -inf + 1) = 0.0` gives `0` for `n = 0`, which
`2 * 0` also yields), so the exact value of that expression is `2 * n`, the
value modelled here.  Floating-point rounding can lower the truncated cast to
`2 * n - 1`; neither `2 * n` nor `2 * n - 1` is a power of two when `n` is not,
so nothing below depends on which rounding the platform produces. -/
def next_power_of_2 (n : Nat) : Nat :=
  if 2 ^ 63 ≤ n then 2 ^ 63
  else if is_pow_of_two n then n
  else 2 * n

/-- One ring slot, `sq::Slot<T, Alignment>`: a payload `value` of type `T` and
a `std::atomic<uint8_t>` `version` (modelled as a `Nat` kept below `2 ^ 8` by
every update). -/
structure Slot (α : Type u) where
  value : α
  version : Nat
deriving DecidableEq

/-- Sequential state of the queue together with its two endpoints.
Field provenance in the source:
* `slots`, `capacity`, `mask` — `sq::BoundedSeqlockQueue::_slots`,
  `_capacity`, `_mask` (the endpoints copy these same three values);
* `write_pos` — `sq::SeqlockQueueProducer::_write_pos`;
* `read_pos`, `read_version` — `sq::SeqlockQueueConsumer::_read_pos`,
  `_read_version`;
* `inFlight` — ghost flag marking a write in progress, true exactly between a
  `prepare_write` and its matching `commit_write` (the parity asserts in the
  source document that the two calls strictly alternate).
`slots` is a total function; the program only ever dereferences indices of the
form `pos & mask`, which lie below the allocated extent. -/
structure SeqlockQueueState (α : Type u) where
  slots : Nat → Slot α
  capacity : Nat
  mask : Nat
  write_pos : Nat
  inFlight : Bool
  read_pos : Nat
  read_version : Nat

/-- The `BoundedSeqlockQueue` constructor paired with the construction of both
endpoints, for a payload type whose zero-initialized value is `z`.
`_capacity = detail::next_power_of_2(capacity)` and `_mask = _capacity - 1`
(in `size_t` arithmetic, hence the explicit wrap modulo `2 ^ 64`, which matters
only in the degenerate `_capacity = 0` case).  The placement-`new` loop
value-initializes slots `0 ≤ i < capacity` — the *requested* capacity, not
`_capacity` — with `version = 254` and a zeroed payload.  Memory beyond the
loop comes straight from `detail::alloc_aligned`, whose `mmap` of fresh
anonymous pages is zero-filled, so the remaining slots of the allocation hold
`version = 0` and a zeroed payload. -/
def BoundedSeqlockQueue (z : α) (capacity : Nat) : SeqlockQueueState α :=
  let cap := next_power_of_2 capacity
  { slots := fun i =>
      if i < capacity then { value := z, version := 254 }
      else { value := z, version := 0 }
    capacity := cap
    mask := (cap + (2 ^ 64 - 1)) % 2 ^ 64
    write_pos := 0
    inFlight := false
    read_pos := 0
    read_version := 0 }

/-- `sq::SeqlockQueueProducer::prepare_write`: a release `fetch_add(1)` on
`slot[_write_pos & _mask].version` (odd afterwards), returning a reference to
the slot payload for the caller to fill.  Sets the ghost `inFlight` flag. -/
def prepare_write (s : SeqlockQueueState α) : SeqlockQueueState α :=
  let t := nat_and s.write_pos s.mask
  { s with
    slots := fun i =>
      if i = t then { value := (s.slots t).value, version := ((s.slots t).version + 1) % 256 }
      else s.slots i
    inFlight := true }

/-- The caller's store through the reference returned by `prepare_write`:
overwrite the payload of the slot at `_write_pos & _mask`. -/
def set_value (v : α) (s : SeqlockQueueState α) : SeqlockQueueState α :=
  let t := nat_and s.write_pos s.mask
  { s with
    slots := fun i =>
      if i = t then { value := v, version := (s.slots t).version }
      else s.slots i }

/-- `sq::SeqlockQueueProducer::commit_write`: a release `fetch_add(1)` on
`slot[_write_pos & _mask].version` (even afterwards), then `_write_pos += 1`.
Clears the ghost `inFlight` flag. -/
def commit_write (s : SeqlockQueueState α) : SeqlockQueueState α :=
  let t := nat_and s.write_pos s.mask
  { s with
    slots := fun i =>
      if i = t then { value := (s.slots t).value, version := ((s.slots t).version + 1) % 256 }
      else s.slots i
    inFlight := false
    write_pos := s.write_pos + 1 }

/-- The producer `write(value)` convenience used by the test-suite: the
two-phase protocol `prepare_write(); payload store; commit_write()`. -/
def write (v : α) (s : SeqlockQueueState α) : SeqlockQueueState α :=
  commit_write (set_value v (prepare_write s))

/-- `sq::SeqlockQueueConsumer::try_read(result)`.  Returns the `bool` result,
the consumer state after the call, and the final contents of the caller's
`result` out-argument, which the body overwrites with the slot payload before
evaluating either version check.  In this sequential embedding no write can
intervene between the two version loads, so `version_1` and `version_2` load
the same value; both loads are kept so that the definition follows the source
line by line. -/
def try_read (s : SeqlockQueueState α) : Bool × SeqlockQueueState α × α :=
  let read_index := nat_and s.read_pos s.mask
  let slot := s.slots read_index
  let version_1 := slot.version
  let result := slot.value
  let version_2 := slot.version
  if version_1 ≠ version_2 ∨ version_1 % 2 = 1 then
    (false, s, result)
  else
    let version_diff := (version_1 + 256 - s.read_version) % 256
    if 254 ≤ version_diff then
      (false, s, result)
    else
      let rv :=
        if read_index = 0 then version_2
        else if read_index = s.capacity - 1 then (version_2 + 2) % 256
        else s.read_version
      (true, { s with read_pos := s.read_pos + 1, read_version := rv }, result)

/-- One sequential operation: a producer phase or a consumer call. -/
inductive Op (α : Type u) where
  | prepare : Op α
  | store : α → Op α
  | commit : Op α
  | tryRead : Op α

/-- Interpret one operation.  The producer phases are guarded by the ghost
`inFlight` flag so that only well-formed call sequences act: the source
`assert`s that `prepare_write` / `commit_write` strictly alternate (version odd
after the first, even after the second), and the payload store only exists
between the two. -/
def step : Op α → SeqlockQueueState α → SeqlockQueueState α
  | Op.prepare, s => if s.inFlight then s else prepare_write s
  | Op.store v, s => if s.inFlight then set_value v s else s
  | Op.commit, s => if s.inFlight then commit_write s else s
  | Op.tryRead, s => (try_read s).2.1

/-- Run a sequential interleaving of operations from a state. -/
def run (s : SeqlockQueueState α) : List (Op α) → SeqlockQueueState α
  | [] => s
  | op :: ops => run (step op s) ops

/-- Iterate `try_read` (discarding results), following the state thread. -/
def read_iter (s : SeqlockQueueState α) : Nat → SeqlockQueueState α
  | 0 => s
  | n + 1 => read_iter (try_read s).2.1 n

/-- `true` iff each of the next `n` `try_read` calls returns `false`. -/
def reads_all_false (s : SeqlockQueueState α) : Nat → Bool
  | 0 => true
  | n + 1 => !(try_read s).1 && reads_all_false (try_read s).2.1 n

/-- The payload struct of the test-suite: `Test1 { uint64_t x; uint64_t y;
uint32_t z; }`.  All values involved are far below both `2 ^ 32` and `2 ^ 64`,
so the fields are plain `Nat`. -/
structure Test1 where
  x : Nat
  y : Nat
  z : Nat
deriving DecidableEq

/-- The payload written in the version-wrap scenario of the test-suite. -/
def item1337 : Test1 := { x := 1337, y := 1127, z := 11271 }

/-- Perform the first `k` writes of the payload sequence `w`, in order
(`w 0` first). -/
def writeSeq (w : Nat → α) : Nat → SeqlockQueueState α → SeqlockQueueState α
  | 0, s => s
  | k + 1, s => write (w k) (writeSeq w k s)

/-! ### Helper lemmas about the embedding -/

theorem bitand_fuel_succ (fuel a b : Nat) :
    bitand_fuel (fuel + 1) a b = (a % 2) * (b % 2) + 2 * bitand_fuel fuel (a / 2) (b / 2) := rfl

theorem bitand_fuel_zero_left (fuel b : Nat) : bitand_fuel fuel 0 b = 0 := by
  induction fuel generalizing b with
  | zero => rfl
  | succ f ih => rw [bitand_fuel_succ]; simp [ih]

theorem bitand_fuel_zero_right (fuel a : Nat) : bitand_fuel fuel a 0 = 0 := by
  induction fuel generalizing a with
  | zero => rfl
  | succ f ih => rw [bitand_fuel_succ]; simp [ih]

theorem nat_and_zero_left (b : Nat) : nat_and 0 b = 0 :=
  bitand_fuel_zero_left 64 b

/-- Masking with `3` is reduction modulo `4`: the index arithmetic of the
capacity-4 queue. -/
theorem nat_and_three (k : Nat) : nat_and k 3 = k % 4 := by
  show bitand_fuel 64 k 3 = k % 4
  rw [show (64 : Nat) = 62 + 1 + 1 from rfl, bitand_fuel_succ, bitand_fuel_succ]
  norm_num [bitand_fuel_zero_right]
  omega

theorem mod256_two_bumps (v : Nat) : ((v + 1) % 256 + 1) % 256 = (v + 2) % 256 := by
  omega

theorem write_write_pos (v : α) (s : SeqlockQueueState α) :
    (write v s).write_pos = s.write_pos + 1 := rfl

theorem write_read_pos (v : α) (s : SeqlockQueueState α) :
    (write v s).read_pos = s.read_pos := rfl

theorem write_read_version (v : α) (s : SeqlockQueueState α) :
    (write v s).read_version = s.read_version := rfl

theorem write_capacity (v : α) (s : SeqlockQueueState α) :
    (write v s).capacity = s.capacity := rfl

theorem write_mask (v : α) (s : SeqlockQueueState α) :
    (write v s).mask = s.mask := rfl

theorem write_inFlight (v : α) (s : SeqlockQueueState α) :
    (write v s).inFlight = false := rfl

/-- The net effect of one completed `write` on the slot array: the slot at
`_write_pos & _mask` receives the new payload and a version bumped by 2 modulo
256; every other slot is untouched. -/
theorem write_slots (v : α) (s : SeqlockQueueState α) (i : Nat) :
    (write v s).slots i =
      if i = nat_and s.write_pos s.mask then
        { value := v, version := ((s.slots (nat_and s.write_pos s.mask)).version + 2) % 256 }
      else s.slots i := by
  by_cases h : i = nat_and s.write_pos s.mask <;>
    simp [write, commit_write, set_value, prepare_write, h, mod256_two_bumps]

/-- A `try_read` call never modifies the slot array. -/
theorem try_read_slots (s : SeqlockQueueState α) : (try_read s).2.1.slots = s.slots := by
  unfold try_read
  dsimp only
  split
  · rfl
  · split <;> rfl

theorem try_read_write_pos (s : SeqlockQueueState α) :
    (try_read s).2.1.write_pos = s.write_pos := by
  unfold try_read
  dsimp only
  split
  · rfl
  · split <;> rfl

theorem try_read_capacity (s : SeqlockQueueState α) :
    (try_read s).2.1.capacity = s.capacity := by
  unfold try_read
  dsimp only
  split
  · rfl
  · split <;> rfl

theorem try_read_mask (s : SeqlockQueueState α) : (try_read s).2.1.mask = s.mask := by
  unfold try_read
  dsimp only
  split
  · rfl
  · split <;> rfl

theorem try_read_inFlight (s : SeqlockQueueState α) :
    (try_read s).2.1.inFlight = s.inFlight := by
  unfold try_read
  dsimp only
  split
  · rfl
  · split <;> rfl

/-- Full outcome of an accepting `try_read`: the slot version is even and its
lag behind the watermark is inside the window, so the call returns `true`,
advances `read_pos`, applies the two-branch watermark update, and delivers the
slot payload. -/
theorem try_read_accept (s : SeqlockQueueState α)
    (hv : (s.slots (nat_and s.read_pos s.mask)).version % 2 = 0)
    (hd : ((s.slots (nat_and s.read_pos s.mask)).version + 256 - s.read_version) % 256 < 254) :
    try_read s = (true,
      { s with
        read_pos := s.read_pos + 1
        read_version :=
          if nat_and s.read_pos s.mask = 0 then (s.slots (nat_and s.read_pos s.mask)).version
          else if nat_and s.read_pos s.mask = s.capacity - 1 then
            ((s.slots (nat_and s.read_pos s.mask)).version + 2) % 256
          else s.read_version },
      (s.slots (nat_and s.read_pos s.mask)).value) := by
  unfold try_read
  rw [if_neg (by simp [hv]), if_neg (by omega)]

/-- Outcome of a `try_read` rejected by the wrap / staleness check: even
version but lag `≥ 254`; the consumer state is returned unchanged while the
out-argument still holds the slot payload. -/
theorem try_read_reject_stale (s : SeqlockQueueState α)
    (hv : (s.slots (nat_and s.read_pos s.mask)).version % 2 = 0)
    (hd : 254 ≤ ((s.slots (nat_and s.read_pos s.mask)).version + 256 - s.read_version) % 256) :
    try_read s = (false, s, (s.slots (nat_and s.read_pos s.mask)).value) := by
  unfold try_read
  rw [if_neg (by simp [hv]), if_pos (by omega)]

/-- Outcome of a `try_read` rejected by the torn / in-flight check: in the
sequential embedding the two loads always agree, so this branch fires exactly
when the version is odd. -/
theorem try_read_reject_odd (s : SeqlockQueueState α)
    (hv : (s.slots (nat_and s.read_pos s.mask)).version % 2 = 1) :
    try_read s = (false, s, (s.slots (nat_and s.read_pos s.mask)).value) := by
  unfold try_read
  rw [if_pos (Or.inr hv)]

/-- Number of producer writes among the first `k` that target ring index `i`
of the capacity-4 ring (`i < 4`): write number `n` targets `n & 3 = n % 4`. -/
def cnt4 (k i : Nat) : Nat := k / 4 + (if i < k % 4 then 1 else 0)

theorem cnt4_succ (k i : Nat) (hi : i < 4) :
    cnt4 (k + 1) i = cnt4 k i + (if i = k % 4 then 1 else 0) := by
  unfold cnt4
  split_ifs <;> omega

/-- Characterization of the state after `k` producer writes (and no consumer
activity) on a freshly constructed capacity-4 queue, for an arbitrary payload
sequence: the producer has visited ring index `i` exactly `cnt4 k i` times,
each visit bumping the slot version by two modulo 256. -/
theorem writeSeq_char (z : α) (w : Nat → α) (k : Nat) :
    (writeSeq w k (BoundedSeqlockQueue z 4)).write_pos = k ∧
    (writeSeq w k (BoundedSeqlockQueue z 4)).read_pos = 0 ∧
    (writeSeq w k (BoundedSeqlockQueue z 4)).read_version = 0 ∧
    (writeSeq w k (BoundedSeqlockQueue z 4)).capacity = 4 ∧
    (writeSeq w k (BoundedSeqlockQueue z 4)).mask = 3 ∧
    (∀ i, i < 4 →
      ((writeSeq w k (BoundedSeqlockQueue z 4)).slots i).version = (254 + 2 * cnt4 k i) % 256) := by
  induction k with
  | zero =>
    refine ⟨rfl, rfl, rfl, rfl, rfl, ?_⟩
    intro i hi
    simp [writeSeq, BoundedSeqlockQueue, hi, cnt4]
  | succ k ih =>
    obtain ⟨hw, hr, hv, hc, hm, hs⟩ := ih
    have htgt : nat_and (writeSeq w k (BoundedSeqlockQueue z 4)).write_pos
        (writeSeq w k (BoundedSeqlockQueue z 4)).mask = k % 4 := by
      rw [hw, hm, nat_and_three]
    refine ⟨by rw [writeSeq, write_write_pos, hw], by rw [writeSeq, write_read_pos, hr],
      by rw [writeSeq, write_read_version, hv], by rw [writeSeq, write_capacity, hc],
      by rw [writeSeq, write_mask, hm], ?_⟩
    intro i hi
    rw [writeSeq, write_slots, htgt]
    by_cases h : i = k % 4
    · rw [if_pos h, ← h]
      have := hs i hi
      simp only [this, cnt4_succ k i hi, if_pos h]
      omega
    · rw [if_neg h, hs i hi, cnt4_succ k i hi, if_neg h]
      omega


/-! ### Claim C5: version-wrap scenario -/

/-- The queue state of the version-wrap scenario: a capacity-4 queue into which
the producer has written 512 items (128 full laps, arbitrary payloads `w`) with
no intervening reads, followed by 2 items with payload `{1337, 1127, 11271}`. -/
def c5_queue (w : Nat → Test1) : SeqlockQueueState Test1 :=
  write item1337 (write item1337
    (writeSeq w 512 (BoundedSeqlockQueue { x := 0, y := 0, z := 0 } 4)))

theorem c5_queue_unfold (w : Nat → Test1) :
    c5_queue w = write item1337 (write item1337
      (writeSeq w 512 (BoundedSeqlockQueue { x := 0, y := 0, z := 0 } 4))) := rfl

/-- Claim C5: for a queue of capacity 4, after the producer writes 512 items
(128 full laps) with no intervening reads and then writes 2 more items with
payload `{1337, 1127, 11271}`, draining the queue yields exactly 2 successful
`try_read` calls, both delivering `{1337, 1127, 11271}`, and the third
`try_read` returns `false`.  Holds for every payload sequence `w` of the first
512 writes. -/
theorem c5_version_wrap_drain (w : Nat → Test1) :
    (try_read (c5_queue w)).1 = true ∧
    (try_read (c5_queue w)).2.2 = item1337 ∧
    (try_read ((try_read (c5_queue w)).2.1)).1 = true ∧
    (try_read ((try_read (c5_queue w)).2.1)).2.2 = item1337 ∧
    (try_read ((try_read ((try_read (c5_queue w)).2.1)).2.1)).1 = false := by
  obtain ⟨hw, hr, hv, hc, hm, hs⟩ := writeSeq_char ({ x := 0, y := 0, z := 0 } : Test1) w 512
  rw [c5_queue_unfold]
  generalize hgen : writeSeq w 512 (BoundedSeqlockQueue ({ x := 0, y := 0, z := 0 } : Test1) 4) = s at hw hr hv hc hm hs ⊢
  clear hgen
  have hver : ∀ i, i < 4 → (s.slots i).version = 254 := by
    intro i hi
    rw [hs i hi]
    norm_num [cnt4]
  -- write 513 targets ring index 0, write 514 targets ring index 1
  have htgt513 : nat_and s.write_pos s.mask = 0 := by
    rw [hw, hm, nat_and_three]
  have htgt514 : nat_and (write item1337 s).write_pos (write item1337 s).mask = 1 := by
    rw [write_write_pos, write_mask, hw, hm, nat_and_three]
  have h513s : ∀ i, (write item1337 s).slots i =
      if i = 0 then { value := item1337, version := 0 } else s.slots i := by
    intro i
    rw [write_slots, htgt513]
    by_cases h : i = 0
    · rw [if_pos h, if_pos h, hver 0 (by norm_num)]
    · rw [if_neg h, if_neg h]
  set q : SeqlockQueueState Test1 := write item1337 (write item1337 s) with hq
  have hqs : ∀ i, q.slots i =
      if i = 1 then { value := item1337, version := 0 }
      else if i = 0 then { value := item1337, version := 0 }
      else s.slots i := by
    intro i
    rw [hq, write_slots, htgt514]
    by_cases h : i = 1
    · rw [if_pos h, if_pos h, h513s, if_neg (by omega), hver 1 (by norm_num)]
    · rw [if_neg h, if_neg h, h513s]
  have hqrp : q.read_pos = 0 := by rw [hq, write_read_pos, write_read_pos, hr]
  have hqrv : q.read_version = 0 := by rw [hq, write_read_version, write_read_version, hv]
  have hqm : q.mask = 3 := by rw [hq, write_mask, write_mask, hm]
  have hqc : q.capacity = 4 := by rw [hq, write_capacity, write_capacity, hc]
  -- first read: ring index 0, version 0, accepted, read_version latched to 0
  have hidx1 : nat_and q.read_pos q.mask = 0 := by rw [hqrp, hqm, nat_and_three]
  have hslot1 : q.slots (nat_and q.read_pos q.mask) = { value := item1337, version := 0 } := by
    rw [hidx1, hqs, if_neg (by omega), if_pos rfl]
  have hread1 : try_read q = (true,
      { q with read_pos := q.read_pos + 1, read_version := 0 }, item1337) := by
    rw [try_read_accept q (by rw [hslot1]; rfl) (by rw [hslot1, hqrv]; decide),
      hslot1, hidx1, if_pos rfl]
  rw [hread1]
  set q1 : SeqlockQueueState Test1 :=
    { q with read_pos := q.read_pos + 1, read_version := 0 } with hq1
  -- second read: ring index 1, version 0, accepted, read_version untouched
  have hq1rp : q1.read_pos = 1 := by rw [hq1]; simp [hqrp]
  have hq1rv : q1.read_version = 0 := by rw [hq1]
  have hq1m : q1.mask = 3 := by rw [hq1]; simp [hqm]
  have hq1c : q1.capacity = 4 := by rw [hq1]; simp [hqc]
  have hq1s : q1.slots = q.slots := by rw [hq1]
  have hidx2 : nat_and q1.read_pos q1.mask = 1 := by rw [hq1rp, hq1m, nat_and_three]
  have hslot2 : q1.slots (nat_and q1.read_pos q1.mask) = { value := item1337, version := 0 } := by
    rw [hidx2, hq1s, hqs, if_pos rfl]
  have hread2 : try_read q1 = (true,
      { q1 with read_pos := q1.read_pos + 1, read_version := 0 }, item1337) := by
    rw [try_read_accept q1 (by rw [hslot2]; rfl) (by rw [hslot2, hq1rv]; decide),
      hslot2, hidx2, if_neg (by omega), hq1c, if_neg (by omega), hq1rv]
  rw [hread2]
  set q2 : SeqlockQueueState Test1 :=
    { q1 with read_pos := q1.read_pos + 1, read_version := 0 } with hq2
  -- third read: ring index 2, version still 254, rejected by the wrap check
  have hq2rp : q2.read_pos = 2 := by rw [hq2]; simp [hq1rp, hqrp]
  have hq2rv : q2.read_version = 0 := by rw [hq2]
  have hq2m : q2.mask = 3 := by rw [hq2]; simp [hq1m, hqm]
  have hq2s : q2.slots = q.slots := by rw [hq2]
  have hidx3 : nat_and q2.read_pos q2.mask = 2 := by rw [hq2rp, hq2m, nat_and_three]
  have hslot3 : (q2.slots (nat_and q2.read_pos q2.mask)).version = 254 := by
    rw [hidx3, hq2s, hqs, if_neg (by omega), if_neg (by omega)]
    exact hver 2 (by omega)
  have hread3 : (try_read q2).1 = false := by
    rw [try_read_reject_stale q2 (by rw [hslot3]) (by rw [hslot3, hq2rv])]
  exact ⟨rfl, rfl, rfl, rfl, hread3⟩

/-! ### Claim C7: the two-phase write protocol -/

theorem prepare_write_inFlight (s : SeqlockQueueState α) :
    (prepare_write s).inFlight = true := rfl

theorem prepare_write_write_pos (s : SeqlockQueueState α) :
    (prepare_write s).write_pos = s.write_pos := rfl

theorem prepare_write_mask (s : SeqlockQueueState α) :
    (prepare_write s).mask = s.mask := rfl

theorem prepare_write_slots (s : SeqlockQueueState α) (i : Nat) :
    (prepare_write s).slots i =
      if i = nat_and s.write_pos s.mask then
        { value := (s.slots (nat_and s.write_pos s.mask)).value
          version := ((s.slots (nat_and s.write_pos s.mask)).version + 1) % 256 }
      else s.slots i := rfl

theorem set_value_inFlight (v : α) (s : SeqlockQueueState α) :
    (set_value v s).inFlight = s.inFlight := rfl

theorem set_value_write_pos (v : α) (s : SeqlockQueueState α) :
    (set_value v s).write_pos = s.write_pos := rfl

theorem set_value_mask (v : α) (s : SeqlockQueueState α) :
    (set_value v s).mask = s.mask := rfl

/-- The payload store between the two version bumps never changes a version. -/
theorem set_value_version (v : α) (s : SeqlockQueueState α) (i : Nat) :
    ((set_value v s).slots i).version = ((s.slots i).version) := by
  show ((if i = nat_and s.write_pos s.mask then _ else s.slots i : Slot α)).version = _
  split
  next h => rw [h]
  next => rfl

theorem commit_write_inFlight (s : SeqlockQueueState α) :
    (commit_write s).inFlight = false := rfl

theorem commit_write_write_pos (s : SeqlockQueueState α) :
    (commit_write s).write_pos = s.write_pos + 1 := rfl

theorem commit_write_slots (s : SeqlockQueueState α) (i : Nat) :
    (commit_write s).slots i =
      if i = nat_and s.write_pos s.mask then
        { value := (s.slots (nat_and s.write_pos s.mask)).value
          version := ((s.slots (nat_and s.write_pos s.mask)).version + 1) % 256 }
      else s.slots i := rfl

/-- The seqlock parity invariant: outside a write every slot version is even,
and during a write exactly the slot at `_write_pos & _mask` is odd. -/
def WriteProtocolInv (s : SeqlockQueueState α) : Prop :=
  (s.inFlight = false → ∀ i, (s.slots i).version % 2 = 0) ∧
  (s.inFlight = true → ∀ i, ((s.slots i).version % 2 = 1 ↔ i = nat_and s.write_pos s.mask))

theorem writeProtocolInv_init (z : α) (c : Nat) :
    WriteProtocolInv (BoundedSeqlockQueue z c) := by
  constructor
  · intro _ i
    show (if i < c then ({ value := z, version := 254 } : Slot α)
      else { value := z, version := 0 }).version % 2 = 0
    split <;> simp
  · intro h
    exact Bool.noConfusion h

theorem writeProtocolInv_step (op : Op α) (s : SeqlockQueueState α)
    (h : WriteProtocolInv s) : WriteProtocolInv (step op s) := by
  obtain ⟨he, ho⟩ := h
  cases op with
  | prepare =>
    by_cases hf : s.inFlight
    · simpa [step, hf] using ⟨he, ho⟩
    · rw [Bool.not_eq_true] at hf
      rw [step, hf]
      simp only [Bool.false_eq_true, if_false]
      constructor
      · intro habs
        rw [prepare_write_inFlight] at habs
        cases habs
      · intro _ i
        rw [prepare_write_slots, prepare_write_write_pos, prepare_write_mask]
        by_cases hi : i = nat_and s.write_pos s.mask
        · rw [if_pos hi]
          have := he hf (nat_and s.write_pos s.mask)
          constructor
          · intro _; exact hi
          · intro _; show (_ + 1) % 256 % 2 = 1; omega
        · rw [if_neg hi]
          have := he hf i
          constructor
          · intro hodd; omega
          · intro hc; exact absurd hc hi
  | store v =>
    by_cases hf : s.inFlight
    · rw [step, if_pos hf]
      constructor
      · intro habs
        rw [set_value_inFlight] at habs
        rw [habs] at hf
        cases hf
      · intro _ i
        rw [set_value_version, set_value_write_pos, set_value_mask]
        exact ho hf i
    · rw [Bool.not_eq_true] at hf
      rw [step, hf]
      simp only [Bool.false_eq_true, if_false]
      exact ⟨he, ho⟩
  | commit =>
    by_cases hf : s.inFlight
    · rw [step, if_pos hf]
      constructor
      · intro _ i
        rw [commit_write_slots]
        by_cases hi : i = nat_and s.write_pos s.mask
        · rw [if_pos hi]
          have := (ho hf (nat_and s.write_pos s.mask)).mpr rfl
          show (_ + 1) % 256 % 2 = 0
          omega
        · rw [if_neg hi]
          have hnot : ¬ ((s.slots i).version % 2 = 1) := fun hodd => hi ((ho hf i).mp hodd)
          omega
      · intro habs
        rw [commit_write_inFlight] at habs
        cases habs
    · rw [Bool.not_eq_true] at hf
      rw [step, hf]
      simp only [Bool.false_eq_true, if_false]
      exact ⟨he, ho⟩
  | tryRead =>
    rw [step]
    constructor
    · intro hfalse i
      rw [try_read_slots]
      rw [try_read_inFlight] at hfalse
      exact he hfalse i
    · intro htrue i
      rw [try_read_slots, try_read_write_pos, try_read_mask]
      rw [try_read_inFlight] at htrue
      exact ho htrue i

theorem writeProtocolInv_run (s : SeqlockQueueState α) (ops : List (Op α))
    (h : WriteProtocolInv s) : WriteProtocolInv (run s ops) := by
  induction ops generalizing s with
  | nil => exact h
  | cons op ops ih => exact ih (step op s) (writeProtocolInv_step op s h)

/-- Claim C7: in every sequential execution, a slot version is odd only
between the begin bump (`prepare_write`) and the end bump (`commit_write`) of
a write to that slot — in every reachable quiescent state all versions are
even, and in every reachable in-flight state exactly the slot under
`_write_pos & _mask` is odd — and every completed write (the guarded
`prepare_write; store; commit_write` sequence from a quiescent state) leaves
that slot's version exactly 2 larger, modulo 256, than before the prelude. -/
theorem c7_write_protocol (z v : α) (c : Nat) (ops : List (Op α))
    (s : SeqlockQueueState α) :
    WriteProtocolInv (run (BoundedSeqlockQueue z c) ops) ∧
    (s.inFlight = false →
      ((run s [Op.prepare, Op.store v, Op.commit]).slots
          (nat_and s.write_pos s.mask)).version
        = ((s.slots (nat_and s.write_pos s.mask)).version + 2) % 256) := by
  refine ⟨writeProtocolInv_run (BoundedSeqlockQueue z c) ops (writeProtocolInv_init z c), ?_⟩
  intro hf
  have hrun : run s [Op.prepare, Op.store v, Op.commit] = write v s := by
    show step Op.commit (step (Op.store v) (step Op.prepare s)) = write v s
    rw [step, hf]
    simp only [Bool.false_eq_true, if_false]
    rw [step, prepare_write_inFlight, if_pos rfl]
    rw [step, set_value_inFlight, prepare_write_inFlight, if_pos rfl]
    rfl
  rw [hrun, write_slots, if_pos rfl]

/-- Witness for the completed-write clause of `c7_write_protocol` at a concrete
quiescent state: one guarded write on a fresh capacity-2 queue bumps slot 0
from version 254 to version 0 = (254 + 2) % 256. -/
theorem c7_write_protocol_witness :
    ((run (BoundedSeqlockQueue (0 : Nat) 2) [Op.prepare, Op.store 5, Op.commit]).slots
        (nat_and (BoundedSeqlockQueue (0 : Nat) 2).write_pos
          (BoundedSeqlockQueue (0 : Nat) 2).mask)).version
      = (((BoundedSeqlockQueue (0 : Nat) 2).slots
          (nat_and (BoundedSeqlockQueue (0 : Nat) 2).write_pos
            (BoundedSeqlockQueue (0 : Nat) 2).mask)).version + 2) % 256 :=
  (c7_write_protocol (0 : Nat) 5 2 [] (BoundedSeqlockQueue (0 : Nat) 2)).2 rfl

/-! ### Claim C8: a freshly constructed queue never delivers -/

/-- On a fresh queue with at least one requested slot, `try_read` hits slot 0,
whose sentinel version 254 fails the wrap check (`diff = 254`), so the call
fails and returns the state unchanged. -/
theorem try_read_fresh_false (z : α) (c : Nat) (hc : 1 ≤ c) :
    try_read (BoundedSeqlockQueue z c) = (false, BoundedSeqlockQueue z c, z) := by
  have hslot : (BoundedSeqlockQueue z c).slots
      (nat_and (BoundedSeqlockQueue z c).read_pos (BoundedSeqlockQueue z c).mask) =
      { value := z, version := 254 } := by
    have h1 : (BoundedSeqlockQueue z c).read_pos = 0 := rfl
    rw [h1, nat_and_zero_left]
    show (if 0 < c then ({ value := z, version := 254 } : Slot α)
      else { value := z, version := 0 }) = _
    rw [if_pos (show 0 < c from hc)]
  have hrv : (BoundedSeqlockQueue z c).read_version = 0 := rfl
  rw [try_read_reject_stale (BoundedSeqlockQueue z c) (by rw [hslot]; simp)
      (by rw [hslot, hrv]; simp),
    hslot]

/-- Claim C8: immediately after construction with any (nonzero) capacity, and
before any producer write, every one of the next `n` `try_read` calls returns
`false` and the whole state — in particular the consumer's `read_pos` and
`read_version` — is left exactly as constructed. -/
theorem c8_fresh_queue_reads_false (z : α) (c n : Nat) (hc : 1 ≤ c) :
    reads_all_false (BoundedSeqlockQueue z c) n = true ∧
    read_iter (BoundedSeqlockQueue z c) n = BoundedSeqlockQueue z c := by
  induction n with
  | zero => exact ⟨rfl, rfl⟩
  | succ n ih =>
    obtain ⟨h1, h2⟩ := ih
    have hf := try_read_fresh_false z c hc
    constructor
    · show (!(try_read (BoundedSeqlockQueue z c)).1 &&
        reads_all_false (try_read (BoundedSeqlockQueue z c)).2.1 n) = true
      rw [hf]
      simpa using h1
    · show read_iter (try_read (BoundedSeqlockQueue z c)).2.1 n = BoundedSeqlockQueue z c
      rw [hf]
      exact h2

/-- Witness for `c8_fresh_queue_reads_false`: a fresh capacity-4 queue rejects
its first three reads and is left in its constructed state. -/
theorem c8_fresh_queue_reads_false_witness :
    reads_all_false (BoundedSeqlockQueue (0 : Nat) 4) 3 = true ∧
    read_iter (BoundedSeqlockQueue (0 : Nat) 4) 3 = BoundedSeqlockQueue (0 : Nat) 4 :=
  c8_fresh_queue_reads_false (0 : Nat) 4 3 (by norm_num)

/-! ### Claims C4, C6, C10: the `try_read` contract -/

/-- Claim C4: `try_read` returns `true` exactly when the two version loads
agree (in this sequential embedding both load the slot's current version, so
the first conjunct records that they are equal), the loaded version is even,
and `(version_1 - _read_version) mod 256` is strictly below 254; and every
call that returns `false` leaves the consumer state — `read_pos` and
`read_version` included — completely unchanged. -/
theorem c4_try_read_success_iff (s : SeqlockQueueState α) :
    ((try_read s).1 = true ↔
      ((s.slots (nat_and s.read_pos s.mask)).version =
          (s.slots (nat_and s.read_pos s.mask)).version ∧
        (s.slots (nat_and s.read_pos s.mask)).version % 2 = 0 ∧
        ((s.slots (nat_and s.read_pos s.mask)).version + 256 - s.read_version) % 256 < 254)) ∧
    ((try_read s).1 = false → (try_read s).2.1 = s) := by
  by_cases hv : (s.slots (nat_and s.read_pos s.mask)).version % 2 = 1
  · rw [try_read_reject_odd s hv]
    refine ⟨⟨fun h => Bool.noConfusion h, ?_⟩, fun _ => rfl⟩
    rintro ⟨-, h2, -⟩
    omega
  · have hv0 : (s.slots (nat_and s.read_pos s.mask)).version % 2 = 0 := by omega
    by_cases hd : 254 ≤ ((s.slots (nat_and s.read_pos s.mask)).version + 256 - s.read_version) % 256
    · rw [try_read_reject_stale s hv0 hd]
      refine ⟨⟨fun h => Bool.noConfusion h, ?_⟩, fun _ => rfl⟩
      rintro ⟨-, -, h3⟩
      omega
    · rw [try_read_accept s hv0 (by omega)]
      exact ⟨⟨fun _ => ⟨rfl, hv0, by omega⟩, fun _ => rfl⟩, fun h => Bool.noConfusion h⟩

/-- Witness for the failure clause of `c4_try_read_success_iff`: the first
read on a fresh capacity-4 queue fails and leaves the consumer untouched. -/
theorem c4_try_read_success_iff_witness :
    (try_read (BoundedSeqlockQueue (0 : Nat) 4)).2.1 = BoundedSeqlockQueue (0 : Nat) 4 :=
  (c4_try_read_success_iff (BoundedSeqlockQueue (0 : Nat) 4)).2 (by decide)

/-- Claim C6: every successful `try_read` at ring index `i = read_pos & mask`
advances `read_pos` by exactly one, and updates the watermark by exactly the
source's three-way branch: at `i = 0` it becomes the observed version, at
`i = capacity - 1` it becomes the observed version plus 2 modulo 256, and
otherwise it is unchanged. -/
theorem c6_read_version_update (s : SeqlockQueueState α) (h : (try_read s).1 = true) :
    (try_read s).2.1.read_pos = s.read_pos + 1 ∧
    (nat_and s.read_pos s.mask = 0 →
      (try_read s).2.1.read_version = (s.slots (nat_and s.read_pos s.mask)).version) ∧
    (nat_and s.read_pos s.mask ≠ 0 → nat_and s.read_pos s.mask = s.capacity - 1 →
      (try_read s).2.1.read_version =
        ((s.slots (nat_and s.read_pos s.mask)).version + 2) % 256) ∧
    (nat_and s.read_pos s.mask ≠ 0 → nat_and s.read_pos s.mask ≠ s.capacity - 1 →
      (try_read s).2.1.read_version = s.read_version) := by
  by_cases hv : (s.slots (nat_and s.read_pos s.mask)).version % 2 = 1
  · rw [try_read_reject_odd s hv] at h
    exact Bool.noConfusion h
  · have hv0 : (s.slots (nat_and s.read_pos s.mask)).version % 2 = 0 := by omega
    by_cases hd : 254 ≤ ((s.slots (nat_and s.read_pos s.mask)).version + 256 - s.read_version) % 256
    · rw [try_read_reject_stale s hv0 hd] at h
      exact Bool.noConfusion h
    · rw [try_read_accept s hv0 (by omega)]
      dsimp only
      refine ⟨rfl, ?_, ?_, ?_⟩
      · intro h0
        rw [if_pos h0]
      · intro h0 h1
        rw [if_neg h0, if_pos h1]
      · intro h0 h1
        rw [if_neg h0, if_neg h1]

/-- Witness for `c6_read_version_update`: after one write on a fresh
capacity-4 queue a read succeeds at ring index 0 and advances `read_pos` from
0 to 1, latching the observed version. -/
theorem c6_read_version_update_witness :
    (try_read (write 7 (BoundedSeqlockQueue (0 : Nat) 4))).2.1.read_pos =
      (write 7 (BoundedSeqlockQueue (0 : Nat) 4)).read_pos + 1 :=
  (c6_read_version_update (write 7 (BoundedSeqlockQueue (0 : Nat) 4)) (by decide)).1

/-- Claim C10: every `try_read` call — the calls that return `false`
included — ends with the caller's out-argument holding a copy of the current
slot's payload (the body performs the copy before either version check, so a
`false` return still overwrites the out-argument with the slot bytes). -/
theorem c10_out_argument_overwritten (s : SeqlockQueueState α) :
    (try_read s).2.2 = (s.slots (nat_and s.read_pos s.mask)).value := by
  unfold try_read
  dsimp only
  split
  · rfl
  · split <;> rfl

/-! ### Claims C1, C2, C3, C9: refutations at concrete inputs -/

/-- Claim C2 exhibit: requested capacity 3.  `next_power_of_2 3` is 6 — not
the smallest power of two at or above 3, which is 4, and not a power of two at
all — so the constructed queue has `_capacity = 6` and `_mask = 5`. -/
theorem c2_capacity_not_power_of_two :
    (BoundedSeqlockQueue (0 : Nat) 3).capacity = next_power_of_2 3 ∧
    next_power_of_2 3 = 6 ∧
    is_pow_of_two 6 = false ∧
    (is_pow_of_two 4 = true ∧ (∀ m, m < 4 → is_pow_of_two m = true → m < 3)) ∧
    (BoundedSeqlockQueue (0 : Nat) 3).mask = 5 := by
  decide

/-- Claim C3 exhibit: requested capacity 3.  The constructor's placement-`new`
loop runs only over the requested 3 slots, while the effective capacity is
larger; slot 3 is inside the effective extent but keeps its allocation-time
contents (version 0 on the zero-filled `mmap` path), not the value-initialized
sentinel 254. -/
theorem c3_slot_not_value_initialized :
    3 < (BoundedSeqlockQueue (0 : Nat) 3).capacity ∧
    ((BoundedSeqlockQueue (0 : Nat) 3).slots 3).version = 0 ∧
    ((BoundedSeqlockQueue (0 : Nat) 3).slots 3).version ≠ 254 := by
  decide

/-- Claim C9 exhibit: capacity 1.  After a single producer write, two
consecutive `try_read` calls both succeed (at ring index 0 the watermark is
re-latched to the very version just consumed), leaving `read_pos = 2` strictly
above `write_pos = 1`. -/
theorem c9_read_pos_exceeds_write_pos :
    (try_read (write 7 (BoundedSeqlockQueue (0 : Nat) 1))).1 = true ∧
    (try_read ((try_read (write 7 (BoundedSeqlockQueue (0 : Nat) 1))).2.1)).1 = true ∧
    (try_read ((try_read (write 7 (BoundedSeqlockQueue (0 : Nat) 1))).2.1)).2.1.read_pos = 2 ∧
    (try_read ((try_read (write 7 (BoundedSeqlockQueue (0 : Nat) 1))).2.1)).2.1.write_pos = 1 := by
  decide

/-- The refuting interleaving for claim C1 on a capacity-4 queue: the producer
writes payloads 10, 11, 12, 13 (filling lap 0), the consumer reads once
(delivering 10), the producer writes 14 and 15 (starting lap 1 in slots 0 and
1), and the consumer then continues reading.  `c1_s6` is the state just before
the consumer's second read. -/
def c1_s6 : SeqlockQueueState Nat :=
  write 15 (write 14 ((try_read (write 13 (write 12 (write 11 (write 10
    (BoundedSeqlockQueue 0 4)))))).2.1))

def c1_r2 : Bool × SeqlockQueueState Nat × Nat := try_read c1_s6

def c1_r3 : Bool × SeqlockQueueState Nat × Nat := try_read c1_r2.2.1

def c1_r4 : Bool × SeqlockQueueState Nat × Nat := try_read c1_r3.2.1

def c1_r5 : Bool × SeqlockQueueState Nat × Nat := try_read c1_r4.2.1

def c1_r6 : Bool × SeqlockQueueState Nat × Nat := try_read c1_r5.2.1

/-- Claim C1 exhibit (capacity 4, a power of two): in the interleaving of
`c1_s6`, the consumer's second read targets ring index 1 with even version 2
and delivers payload 15; the next three successful reads target ring indices
2, 3 and 0; the sixth read targets ring index 1 again — slot 1 still at the
same even version 2, never rewritten in between — succeeds, and delivers the
same produced payload 15 a second time.  Successive successful reads at slot 1
thus return equal versions (2, then 2), and the same logically produced value
is delivered twice. -/
theorem c1_double_delivery :
    (nat_and c1_s6.read_pos c1_s6.mask = 1 ∧ (c1_s6.slots 1).version = 2 ∧
      c1_r2.1 = true ∧ c1_r2.2.2 = 15) ∧
    (nat_and c1_r2.2.1.read_pos c1_r2.2.1.mask = 2 ∧ c1_r3.1 = true ∧ c1_r3.2.2 = 12) ∧
    (nat_and c1_r3.2.1.read_pos c1_r3.2.1.mask = 3 ∧ c1_r4.1 = true ∧ c1_r4.2.2 = 13) ∧
    (nat_and c1_r4.2.1.read_pos c1_r4.2.1.mask = 0 ∧ c1_r5.1 = true ∧ c1_r5.2.2 = 14) ∧
    (nat_and c1_r5.2.1.read_pos c1_r5.2.1.mask = 1 ∧ (c1_r5.2.1.slots 1).version = 2 ∧
      c1_r6.1 = true ∧ c1_r6.2.2 = 15) := by
  decide
